import Mathlib

/-!
Verification of the message-bridge core of `parity-bridges-common`.

The development shallowly embeds the Rust sources:
  * `bin/runtime-common/src/messages.rs` — fee math, outbound message
    verification, messages-proof verification;
  * `primitives/runtime/src/lib.rs` — cross-chain account derivation;
  * `bin/rialto/runtime/src/millau_messages.rs` — the Rialto runtime bridge
    configuration;
  * `relays/bin-substrate/src/chains/millau_messages_to_rialto.rs` — the
    relayer batch limits.

Machine integers are embedded as `Nat` with explicit wrapping / saturating /
checked operations at the relevant widths.  Byte strings are `List Nat`
(each element a byte value).  `blake2b256` below is a complete executable
implementation of BLAKE2b-256 (RFC 7693), validated against the standard
test vectors.
-/

/-- Largest value of a 64-bit unsigned integer. -/
def u64Max : Nat := 2 ^ 64 - 1

/-- Largest value of a 32-bit unsigned integer. -/
def u32Max : Nat := 2 ^ 32 - 1

/-- Wrapping (modular) 64-bit addition. -/
def add64 (a b : Nat) : Nat := (a + b) % 2 ^ 64

/-- Bitwise xor (operands are kept below `2 ^ 64` by construction). -/
def xor64 (a b : Nat) : Nat := a ^^^ b

/-- Right rotation of a 64-bit word by `n` bits. -/
def rotr64 (x n : Nat) : Nat := ((x >>> n) ||| (x <<< (64 - n))) % 2 ^ 64

/-- Value at index `i` of a word list, zero when out of range. -/
def lget (v : List Nat) (i : Nat) : Nat := v.getD i 0

/-- Little-endian interpretation of a byte list as a natural number. -/
def leBytesToNat (bs : List Nat) : Nat := bs.foldr (fun b acc => b + 256 * acc) 0

/-- Little-endian byte decomposition of `n` into `k` bytes. -/
def natToLeBytes : Nat → Nat → List Nat
  | 0, _ => []
  | k + 1, n => n % 256 :: natToLeBytes k (n / 256)

/-- Initialization vector of BLAKE2b (RFC 7693 §2.6). -/
def blakeIV : List Nat :=
  [0x6a09e667f3bcc908, 0xbb67ae8584caa73b, 0x3c6ef372fe94f82b, 0xa54ff53a5f1d36f1,
   0x510e527fade682d1, 0x9b05688c2b3e6c1f, 0x1f83d9abfb41bd6b, 0x5be0cd19137e2179]

/-- Message schedule permutations of BLAKE2b (RFC 7693 §2.7). -/
def blakeSigma : List (List Nat) :=
  [[0, 1, 2, 3, 4, 5, 6, 7, 8, 9, 10, 11, 12, 13, 14, 15],
   [14, 10, 4, 8, 9, 15, 13, 6, 1, 12, 0, 2, 11, 7, 5, 3],
   [11, 8, 12, 0, 5, 2, 15, 13, 10, 14, 3, 6, 7, 1, 9, 4],
   [7, 9, 3, 1, 13, 12, 11, 14, 2, 6, 5, 10, 4, 0, 15, 8],
   [9, 0, 5, 7, 2, 4, 10, 15, 14, 1, 11, 12, 6, 8, 3, 13],
   [2, 12, 6, 10, 0, 11, 8, 3, 4, 13, 7, 5, 15, 14, 1, 9],
   [12, 5, 1, 15, 14, 13, 4, 10, 0, 7, 6, 3, 9, 2, 8, 11],
   [13, 11, 7, 14, 12, 1, 3, 9, 5, 0, 15, 4, 8, 6, 2, 10],
   [6, 15, 14, 9, 11, 3, 0, 8, 12, 2, 13, 7, 1, 4, 10, 5],
   [10, 2, 8, 4, 7, 6, 1, 5, 15, 11, 9, 14, 3, 12, 13, 0]]

/-- The BLAKE2b mixing function G acting on working vector `v`. -/
def blakeG (v : List Nat) (a b c d x y : Nat) : List Nat :=
  let va := add64 (add64 (lget v a) (lget v b)) x
  let vd := rotr64 (xor64 (lget v d) va) 32
  let vc := add64 (lget v c) vd
  let vb := rotr64 (xor64 (lget v b) vc) 24
  let va' := add64 (add64 va vb) y
  let vd' := rotr64 (xor64 vd va') 16
  let vc' := add64 vc vd'
  let vb' := rotr64 (xor64 vb vc') 63
  (((v.set a va').set b vb').set c vc').set d vd'

/-- One round of the BLAKE2b compression function. -/
def blakeRound (m v : List Nat) (s : List Nat) : List Nat :=
  let v1 := blakeG v 0 4 8 12 (lget m (lget s 0)) (lget m (lget s 1))
  let v2 := blakeG v1 1 5 9 13 (lget m (lget s 2)) (lget m (lget s 3))
  let v3 := blakeG v2 2 6 10 14 (lget m (lget s 4)) (lget m (lget s 5))
  let v4 := blakeG v3 3 7 11 15 (lget m (lget s 6)) (lget m (lget s 7))
  let v5 := blakeG v4 0 5 10 15 (lget m (lget s 8)) (lget m (lget s 9))
  let v6 := blakeG v5 1 6 11 12 (lget m (lget s 10)) (lget m (lget s 11))
  let v7 := blakeG v6 2 7 8 13 (lget m (lget s 12)) (lget m (lget s 13))
  blakeG v7 3 4 9 14 (lget m (lget s 14)) (lget m (lget s 15))

/-- Split a (zero padded) 128-byte block into sixteen little-endian 64-bit words. -/
def blockWords (bs : List Nat) : List Nat :=
  (List.range 16).map (fun i => leBytesToNat ((bs.drop (8 * i)).take 8))

/-- The BLAKE2b compression function F (RFC 7693 §3.2). -/
def blakeCompress (h m : List Nat) (t : Nat) (last : Bool) : List Nat :=
  let v0 := h ++ blakeIV
  let v1 := v0.set 12 (xor64 (lget v0 12) (t % 2 ^ 64))
  let v2 := v1.set 13 (xor64 (lget v1 13) (t / 2 ^ 64 % 2 ^ 64))
  let v3 := if last then v2.set 14 (xor64 (lget v2 14) u64Max) else v2
  let v4 := (List.range 12).foldl (fun v i => blakeRound m v (blakeSigma.getD (i % 10) [])) v3
  (List.range 8).map (fun i => xor64 (lget h i) (xor64 (lget v4 i) (lget v4 (i + 8))))

/-- Process the message blocks of BLAKE2b; `fuel` bounds the recursion and is
chosen large enough by the caller. -/
def blakeBlocks : Nat → List Nat → Nat → List Nat → List Nat
  | 0, h, _, _ => h
  | fuel + 1, h, processed, data =>
    if data.length ≤ 128 then
      blakeCompress h (blockWords (data ++ List.replicate (128 - data.length) 0))
        (processed + data.length) true
    else
      blakeBlocks fuel
        (blakeCompress h (blockWords (data.take 128)) (processed + 128) false)
        (processed + 128) (data.drop 128)

/-- BLAKE2b with a 32-byte digest (no key), as used by `sp_io::hashing::blake2_256`.
Input and output are byte lists. -/
def blake2b256 (data : List Nat) : List Nat :=
  let h0 := blakeIV.set 0 (xor64 (lget blakeIV 0) 0x01010020)
  let h := blakeBlocks (data.length / 128 + 1) h0 0 data
  ((h.take 4).map (natToLeBytes 8)).flatten

set_option maxRecDepth 100000

/-- RFC 7693 test vector: BLAKE2b-256 of the empty string. -/
theorem blake2b256_empty_input :
    blake2b256 [] =
      [14, 87, 81, 192, 38, 229, 67, 178, 232, 171, 46, 176, 96, 153, 218, 161,
       209, 229, 223, 71, 119, 143, 119, 135, 250, 171, 69, 205, 241, 47, 227, 168] := by
  decide

/-- Standard test vector: BLAKE2b-256 of the ASCII string abc. -/
theorem blake2b256_abc_input :
    blake2b256 [97, 98, 99] =
      [189, 221, 129, 60, 99, 66, 57, 114, 49, 113, 239, 63, 238, 152, 87, 155,
       148, 150, 78, 59, 177, 203, 62, 66, 114, 98, 200, 192, 104, 213, 35, 25] := by
  decide

/-!
SCALE codec fragments.  `parity-scale-codec` is an external dependency of the
repository; the encodings used below follow §6.2 of the specification
(compact-u32 length prefixes, little-endian fixed integers, one-byte enum
discriminants).
-/

/-- SCALE compact encoding of a length (here always below `2 ^ 30`). -/
def compactEncode (n : Nat) : List Nat :=
  if n < 64 then [n * 4]
  else if n < 2 ^ 14 then natToLeBytes 2 (n * 4 + 1)
  else natToLeBytes 4 (n * 4 + 2)

/-- SCALE compact decoding; returns the value and remaining bytes. -/
def compactDecode : List Nat → Option (Nat × List Nat)
  | [] => none
  | b :: rest =>
    match b % 4 with
    | 0 => some (b / 4, rest)
    | 1 =>
      match rest with
      | b1 :: rest1 => some ((b + 256 * b1) / 4, rest1)
      | [] => none
    | 2 =>
      match rest with
      | b1 :: b2 :: b3 :: rest3 =>
        some ((b + 256 * b1 + 256 ^ 2 * b2 + 256 ^ 3 * b3) / 4, rest3)
      | _ => none
    | _ =>
      let len := b / 4 + 4
      if rest.length < len then none
      else some (leBytesToNat (rest.take len), rest.drop len)

/-- Decode a little-endian fixed-width unsigned integer of `k` bytes. -/
def decodeUintLe (k : Nat) (bs : List Nat) : Option (Nat × List Nat) :=
  if bs.length < k then none
  else some (leBytesToNat (bs.take k), bs.drop k)

/-!
Account derivation, from `primitives/runtime/src/lib.rs`.

`ChainId` is a 4-byte tag; accounts are represented by their SCALE encoding
(the Rust code is generic over `AccountId: Encode` and only ever uses the
encoded bytes).
-/

/-- A chain id tag, `[u8; 4]` in the source. -/
abbrev ChainIdBytes := List Nat

/-- Byte content of `ROOT_ACCOUNT_DERIVATION_PREFIX`
(the ASCII string pallet-bridge/account-derivation/root). -/
def rootAccountDerivationPrefixBytes : List Nat :=
  [112, 97, 108, 108, 101, 116, 45, 98, 114, 105, 100, 103, 101, 47, 97, 99, 99,
   111, 117, 110, 116, 45, 100, 101, 114, 105, 118, 97, 116, 105, 111, 110, 47,
   114, 111, 111, 116]

/-- Byte content of `ACCOUNT_DERIVATION_PREFIX`
(the ASCII string pallet-bridge/account-derivation/account). -/
def accountDerivationPrefixBytes : List Nat :=
  [112, 97, 108, 108, 101, 116, 45, 98, 114, 105, 100, 103, 101, 47, 97, 99, 99,
   111, 117, 110, 116, 45, 100, 101, 114, 105, 118, 97, 116, 105, 111, 110, 47,
   97, 99, 99, 111, 117, 110, 116]

/-- The `SourceAccount` enum; `Account` carries the SCALE encoding of the
embedded account id. -/
inductive SourceAccountE where
  | Root : SourceAccountE
  | Account : List Nat → SourceAccountE

/-- SCALE encoding of the tuple `(ROOT_ACCOUNT_DERIVATION_PREFIX, bridge_id)`:
the `&[u8]` prefix is length-prefixed, the `[u8; 4]` chain id is raw. -/
def encodedRootDerivation (bridge_id : ChainIdBytes) : List Nat :=
  compactEncode rootAccountDerivationPrefixBytes.length ++
    rootAccountDerivationPrefixBytes ++ bridge_id

/-- SCALE encoding of the tuple `(ACCOUNT_DERIVATION_PREFIX, bridge_id, id)`. -/
def encodedAccountDerivation (bridge_id : ChainIdBytes) (encodedId : List Nat) : List Nat :=
  compactEncode accountDerivationPrefixBytes.length ++
    accountDerivationPrefixBytes ++ bridge_id ++ encodedId

/-- Embedding of `derive_account_id` (`primitives/runtime/src/lib.rs`): the
BLAKE2b-256 hash of the SCALE-encoded `(prefix, bridge_id [, id])` tuple. -/
def derive_account_id (bridge_id : ChainIdBytes) (id : SourceAccountE) : List Nat :=
  match id with
  | .Root => blake2b256 (encodedRootDerivation bridge_id)
  | .Account encodedId => blake2b256 (encodedAccountDerivation bridge_id encodedId)

/-- Chain id of Rialto, the ASCII bytes of rlto. -/
def RIALTO_CHAIN_ID : ChainIdBytes := [114, 108, 116, 111]

/-- Chain id of Millau, the ASCII bytes of mlau. -/
def MILLAU_CHAIN_ID : ChainIdBytes := [109, 108, 97, 117]

/-!
Embedding of `bin/runtime-common/src/messages.rs`, `target` sub-module:
verification of Bridged → This chain message proofs.
-/

/-- Lane identifier, `[u8; 4]` in the source. -/
abbrev LaneIdBytes := List Nat

/-- Unique id of a message: `(lane_id, nonce)`. -/
structure MessageKeyE where
  lane_id : LaneIdBytes
  nonce : Nat
  deriving DecidableEq, Repr

/-- Message data: opaque payload bytes and the prepaid fee. -/
structure MessageDataE where
  payload : List Nat
  fee : Nat
  deriving DecidableEq, Repr

/-- A message together with its key. -/
structure MessageE where
  key : MessageKeyE
  data : MessageDataE
  deriving DecidableEq, Repr

/-- Outbound lane state (`OutboundLaneData` of `bp-messages`): three `u64` nonces. -/
structure OutboundLaneDataE where
  oldest_unpruned_nonce : Nat
  latest_received_nonce : Nat
  latest_generated_nonce : Nat
  deriving DecidableEq, Repr

/-- Default value of `OutboundLaneData` (`oldest_unpruned_nonce = 1`, rest 0). -/
def defaultOutboundLaneData : OutboundLaneDataE :=
  { oldest_unpruned_nonce := 1, latest_received_nonce := 0, latest_generated_nonce := 0 }

/-- Proved messages of a single lane. -/
structure ProvedLaneMessagesE where
  lane_state : Option OutboundLaneDataE
  messages : List MessageE
  deriving DecidableEq, Repr

/-- Errors of the messages-proof verifier (enum `MessageProofError`). -/
inductive MessageProofError where
  | Empty : MessageProofError
  | MessagesCountMismatch : MessageProofError
  | MissingRequiredMessage : MessageProofError
  | FailedToDecodeMessage : MessageProofError
  | FailedToDecodeOutboundLaneState : MessageProofError
  | Custom : String → MessageProofError
  deriving DecidableEq, Repr

/-- Messages proof from the bridged chain (struct `FromBridgedChainMessagesProof`). -/
structure FromBridgedChainMessagesProof where
  bridged_header_hash : Nat
  storage_proof : List (List Nat)
  lane : LaneIdBytes
  nonces_start : Nat
  nonces_end : Nat
  deriving DecidableEq, Repr

/-- Abstract message proof parser (trait `MessageProofParser`). -/
structure MessageProofParser where
  read_raw_outbound_lane_data : LaneIdBytes → Option (List Nat)
  read_raw_message : MessageKeyE → Option (List Nat)

instance {ε α : Type} [DecidableEq ε] [DecidableEq α] : DecidableEq (Except ε α) := fun x y =>
  match x, y with
  | .ok a, .ok b => if h : a = b then isTrue (by simp [h]) else isFalse (by simp [h])
  | .error a, .error b => if h : a = b then isTrue (by simp [h]) else isFalse (by simp [h])
  | .ok _, .error _ => isFalse (by simp)
  | .error _, .ok _ => isFalse (by simp)

/-- SCALE decoding of `MessageData`: compact-length-prefixed payload bytes
followed by the fee, whose decoder (`decodeFee`) depends on the bridged
chain balance type.  Trailing bytes are tolerated, as by SCALE `decode`. -/
def decodeMessageData (decodeFee : List Nat → Option (Nat × List Nat))
    (bs : List Nat) : Option MessageDataE :=
  match compactDecode bs with
  | none => none
  | some (len, r) =>
    if r.length < len then none
    else
      match decodeFee (r.drop len) with
      | none => none
      | some (fee, _) => some { payload := r.take len, fee := fee }

/-- SCALE decoding of `OutboundLaneData`: three little-endian `u64` values. -/
def decodeOutboundLaneData (bs : List Nat) : Option OutboundLaneDataE :=
  match decodeUintLe 8 bs with
  | none => none
  | some (a, r1) =>
    match decodeUintLe 8 r1 with
    | none => none
    | some (b, r2) =>
      match decodeUintLe 8 r2 with
      | none => none
      | some (c, _) => some { oldest_unpruned_nonce := a, latest_received_nonce := b,
                              latest_generated_nonce := c }

/-- SCALE encoding of `OutboundLaneData`. -/
def encodeOutboundLaneData (d : OutboundLaneDataE) : List Nat :=
  natToLeBytes 8 d.oldest_unpruned_nonce ++ natToLeBytes 8 d.latest_received_nonce ++
    natToLeBytes 8 d.latest_generated_nonce

/-- SCALE encoding of `MessageData` with a 4-byte (u32) fee. -/
def encodeMessageDataU32Fee (d : MessageDataE) : List Nat :=
  compactEncode d.payload.length ++ d.payload ++ natToLeBytes 4 d.fee

/-- Read and decode the `count` messages with nonces `start, start+1, …`
(the `for nonce in nonces_start..=nonces_end` loop of the source). -/
def readMessages (parser : MessageProofParser)
    (decodeFee : List Nat → Option (Nat × List Nat)) (lane : LaneIdBytes) :
    Nat → Nat → Except MessageProofError (List MessageE)
  | _, 0 => .ok []
  | start, count + 1 =>
    let key : MessageKeyE := { lane_id := lane, nonce := start }
    match parser.read_raw_message key with
    | none => .error .MissingRequiredMessage
    | some raw =>
      match decodeMessageData decodeFee raw with
      | none => .error .FailedToDecodeMessage
      | some data =>
        match readMessages parser decodeFee lane (start + 1) count with
        | .error e => .error e
        | .ok msgs => .ok ({ key := key, data := data } :: msgs)

/-- Embedding of `target::verify_messages_proof_with_parser`
(`bin/runtime-common/src/messages.rs`).  The proved messages map is a
single-entry association list.  `decodeFee` stands for the `Decode` instance
of the bridged chain balance. -/
def verifyMessagesProofWithParser
    (decodeFee : List Nat → Option (Nat × List Nat))
    (proof : FromBridgedChainMessagesProof) (messages_count : Nat)
    (buildParser : Nat → List (List Nat) → Except MessageProofError MessageProofParser) :
    Except MessageProofError (List (LaneIdBytes × ProvedLaneMessagesE)) :=
  -- receiving proofs where end < begin is ok (if proof includes outbound lane state)
  if proof.nonces_start ≤ proof.nonces_end ∧
      min (proof.nonces_end - proof.nonces_start + 1) u64Max ≠ messages_count then
    .error .MessagesCountMismatch
  else
    match buildParser proof.bridged_header_hash proof.storage_proof with
    | .error e => .error e
    | .ok parser =>
      match readMessages parser decodeFee proof.lane proof.nonces_start
          (proof.nonces_end + 1 - proof.nonces_start) with
      | .error e => .error e
      | .ok messages =>
        match parser.read_raw_outbound_lane_data proof.lane with
        | some raw =>
          match decodeOutboundLaneData raw with
          | none => .error .FailedToDecodeOutboundLaneState
          | some st => .ok [(proof.lane, { lane_state := some st, messages := messages })]
        | none =>
          if messages.isEmpty then .error .Empty
          else .ok [(proof.lane, { lane_state := none, messages := messages })]

/-- The test parser of the source test-suite (`TestMessageProofParser`):
serves encoded messages for nonces in `[mStart, mEnd]` (payload is the SCALE
encoded nonce, fee 0) and optionally an encoded outbound lane state; in
`failing` mode it serves empty (undecodable) byte strings. -/
def testMessageProofParser (failing : Bool) (mStart mEnd : Nat)
    (laneData : Option OutboundLaneDataE) : MessageProofParser :=
  { read_raw_outbound_lane_data := fun _ =>
      if failing then some [] else laneData.map encodeOutboundLaneData
    read_raw_message := fun key =>
      if failing then some []
      else if mStart ≤ key.nonce ∧ key.nonce ≤ mEnd then
        some (encodeMessageDataU32Fee { payload := natToLeBytes 8 key.nonce, fee := 0 })
      else none }

/-- The proof shape used by the source test-suite: default lane, nonces from 1. -/
def messagesProofFrom1 (nonces_end : Nat) : FromBridgedChainMessagesProof :=
  { bridged_header_hash := 0, storage_proof := [], lane := [0, 0, 0, 0],
    nonces_start := 1, nonces_end := nonces_end }

/-!
Embedding of `bin/runtime-common/src/messages.rs`, `source` sub-module:
outbound message verification and fee estimation.  The generic trait bundle
(`MessageBridge`, `ThisChainWithMessages`, `BridgedChainWithMessages`) is
embedded as one configuration record of functions; balances of This chain
are `Nat` values with checked arithmetic bounded by `this_balance_max`
(`Balance::MAX` of the concrete balance type).
-/

/-- Dispatch fee payment mode.  Modelled from the spec: the
`DispatchFeePayment` enum of `bp-runtime::messages` (whose source file is not
part of this tree) has the two modes AtSourceChain and AtTargetChain. -/
inductive DispatchFeePayment where
  | AtSourceChain : DispatchFeePayment
  | AtTargetChain : DispatchFeePayment
  deriving DecidableEq, Repr

/-- Call origin of a message.  Modelled from the spec: the `CallOrigin` enum
of `bp-message-dispatch` (not part of this tree) has discriminants
SourceRoot, TargetAccount (target public key plus signature) and
SourceAccount.  Account ids and keys are abstracted as `Nat`. -/
inductive CallOriginE where
  | SourceRoot : CallOriginE
  | TargetAccount : Nat → Nat → CallOriginE
  | SourceAccount : Nat → CallOriginE
  deriving DecidableEq, Repr

/-- Message payload of This → Bridged chain messages (`MessagePayload`). -/
structure MessagePayloadE where
  spec_version : Nat
  weight : Nat
  origin : CallOriginE
  dispatch_fee_payment : DispatchFeePayment
  call : List Nat
  deriving DecidableEq, Repr

/-- Submitter of an outbound message (`bp-messages::source_chain::Sender`). -/
inductive SenderE where
  | Root : SenderE
  | Signed : Nat → SenderE
  | None : SenderE
  deriving DecidableEq, Repr

/-- Estimated transaction parameters (struct `MessageTransaction`). -/
structure MessageTransactionE where
  dispatch_weight : Nat
  size : Nat
  deriving DecidableEq, Repr

/-- Checked addition bounded by `bmax`. -/
def checkedAdd (bmax a b : Nat) : Option Nat := if a + b ≤ bmax then some (a + b) else none

/-- Checked multiplication bounded by `bmax`. -/
def checkedMul (bmax a b : Nat) : Option Nat := if a * b ≤ bmax then some (a * b) else none

/-- Checked division (fails only on division by zero). -/
def checkedDiv (a b : Nat) : Option Nat := if b = 0 then none else some (a / b)

/-- Error string `OUTBOUND_LANE_DISABLED`. -/
def OUTBOUND_LANE_DISABLED : String := "The outbound message lane is disabled."

/-- Error string `TOO_MANY_PENDING_MESSAGES`. -/
def TOO_MANY_PENDING_MESSAGES : String := "Too many pending messages at the lane."

/-- Error string `BAD_ORIGIN`. -/
def BAD_ORIGIN : String := "Unable to match the source origin to expected target origin."

/-- Error string `TOO_LOW_FEE`. -/
def TOO_LOW_FEE : String := "Provided fee is below minimal threshold required by the lane."

/-- Error string returned by `estimate_message_dispatch_and_delivery_fee` on overflow. -/
def FEE_OVERFLOW : String :=
  "Overflow when computing minimal required message delivery and dispatch fee"

/-- Configuration record standing for a `MessageBridge` implementation and the
chain trait methods it references. -/
structure MessageBridgeConfig where
  relayer_fee_percent : Nat
  this_balance_max : Nat
  is_outbound_lane_enabled : LaneIdBytes → Bool
  maximal_pending_messages : Nat
  estimate_delivery_confirmation_transaction : MessageTransactionE
  this_transaction_payment : MessageTransactionE → Nat
  estimate_delivery_transaction : List Nat → Bool → Nat → MessageTransactionE
  bridged_transaction_payment : MessageTransactionE → Nat
  bridged_balance_to_this_balance : Nat → Nat
  target_signature_valid : Nat → Nat → List Nat → Nat → Bool
  encode_payload : MessagePayloadE → List Nat

/-- Embedding of `source::estimate_message_dispatch_and_delivery_fee`. -/
def estimate_message_dispatch_and_delivery_fee (cfg : MessageBridgeConfig)
    (payload : MessagePayloadE) (relayer_fee_percent : Nat) : Except String Nat :=
  let pay_at_target : Bool := payload.dispatch_fee_payment == .AtTargetChain
  let delivery_transaction := cfg.estimate_delivery_transaction (cfg.encode_payload payload)
    pay_at_target (if pay_at_target then 0 else payload.weight)
  let delivery_transaction_fee := cfg.bridged_transaction_payment delivery_transaction
  let confirmation_transaction_fee :=
    cfg.this_transaction_payment cfg.estimate_delivery_confirmation_transaction
  match checkedAdd cfg.this_balance_max
      (cfg.bridged_balance_to_this_balance delivery_transaction_fee)
      confirmation_transaction_fee with
  | none => .error FEE_OVERFLOW
  | some fee =>
    match checkedMul cfg.this_balance_max fee relayer_fee_percent with
    | none => .error FEE_OVERFLOW
    | some product =>
      match checkedDiv product 100 with
      | none => .error FEE_OVERFLOW
      | some interest =>
        match checkedAdd cfg.this_balance_max fee interest with
        | none => .error FEE_OVERFLOW
        | some total => .ok total

/-- Modelled from the spec: `verify_message_origin` of `pallet-bridge-dispatch`
(not part of this tree).  Per §4.E step 3: a SourceRoot payload needs the Root
origin, a SourceAccount payload needs the matching signed origin, a
TargetAccount payload needs a valid target-chain signature over
`(public, call_bytes, spec_version)`; otherwise the origin is rejected. -/
def verify_message_origin (sig_valid : Nat → Nat → List Nat → Nat → Bool)
    (submitter : SenderE) (payload : MessagePayloadE) : Bool :=
  match payload.origin with
  | .SourceRoot => submitter == .Root
  | .SourceAccount a => submitter == .Signed a
  | .TargetAccount pk sg => sig_valid pk sg payload.call payload.spec_version

/-- Embedding of `FromThisChainMessageVerifier::verify_message`. -/
def verify_message (cfg : MessageBridgeConfig) (submitter : SenderE)
    (delivery_and_dispatch_fee : Nat) (lane : LaneIdBytes)
    (lane_outbound_data : OutboundLaneDataE) (payload : MessagePayloadE) :
    Except String Unit :=
  -- reject message if lane is blocked
  if ¬ cfg.is_outbound_lane_enabled lane then .error OUTBOUND_LANE_DISABLED
  else
    -- reject message if there are too many pending messages at this lane
    let pending := lane_outbound_data.latest_generated_nonce -
      lane_outbound_data.latest_received_nonce
    if pending > cfg.maximal_pending_messages then .error TOO_MANY_PENDING_MESSAGES
    else if ¬ verify_message_origin cfg.target_signature_valid submitter payload then
      .error BAD_ORIGIN
    else
      match estimate_message_dispatch_and_delivery_fee cfg payload cfg.relayer_fee_percent with
      | .error e => .error e
      | .ok minimal_fee_in_this_tokens =>
        if delivery_and_dispatch_fee < minimal_fee_in_this_tokens then .error TOO_LOW_FEE
        else .ok ()

/-- SCALE encoding of a `CallOrigin` with `u32` account ids (one-byte
discriminant then the variant body), modelled from §6.2 of the spec. -/
def encodeCallOriginU32 : CallOriginE → List Nat
  | .SourceRoot => [0]
  | .TargetAccount pk sg => 1 :: (natToLeBytes 4 pk ++ natToLeBytes 4 sg)
  | .SourceAccount a => 2 :: natToLeBytes 4 a

/-- SCALE encoding of a `DispatchFeePayment`. -/
def encodeDispatchFeePayment : DispatchFeePayment → List Nat
  | .AtSourceChain => [0]
  | .AtTargetChain => [1]

/-- SCALE encoding of a message payload with `u32` account ids. -/
def encodeMessagePayloadU32 (p : MessagePayloadE) : List Nat :=
  natToLeBytes 4 p.spec_version ++ natToLeBytes 8 p.weight ++
    encodeCallOriginU32 p.origin ++ encodeDispatchFeePayment p.dispatch_fee_payment ++
    compactEncode p.call.length ++ p.call

/-- Truncating cast to `u32` (`as u32`). -/
def wrap32 (n : Nat) : Nat := n % 2 ^ 32

/-- The bridge configuration of the test-suite in
`bin/runtime-common/src/messages.rs` (`OnThisChainBridge` with `ThisChain` and
`BridgedChain` mock chains): the enabled lane is the ASCII tag test, at most
32 pending messages, delivery and confirmation transactions cost 100 weight,
weight-to-balance rates are 2 (This) / 4 (Bridged), bridged-to-this balance
rate 6, balances are `u32`. -/
def testBridgeConfig : MessageBridgeConfig :=
  { relayer_fee_percent := 10
    this_balance_max := u32Max
    is_outbound_lane_enabled := fun lane => lane == [116, 101, 115, 116]
    maximal_pending_messages := 32
    estimate_delivery_confirmation_transaction := { dispatch_weight := 100, size := 0 }
    this_transaction_payment := fun tx => wrap32 (wrap32 tx.dispatch_weight * 2)
    estimate_delivery_transaction := fun _payload _includePayCost w =>
      { dispatch_weight := (100 + w) % 2 ^ 64, size := 0 }
    bridged_transaction_payment := fun tx => wrap32 (wrap32 tx.dispatch_weight * 4)
    bridged_balance_to_this_balance := fun b => wrap32 (b * 6)
    target_signature_valid := fun _ _ _ _ => false
    encode_payload := encodeMessagePayloadU32 }

/-- The `TEST_LANE_ID` of the source test-suite, the ASCII bytes of test. -/
def TEST_LANE_ID : LaneIdBytes := [116, 101, 115, 116]

/-- The S1 payload of the spec (`regular_outbound_message_payload` of the
source test-suite): spec version 1, weight 100, SourceRoot origin, dispatch
fee paid at the source chain, call bytes `[42]`. -/
def regularOutboundMessagePayload : MessagePayloadE :=
  { spec_version := 1, weight := 100, origin := .SourceRoot,
    dispatch_fee_payment := .AtSourceChain, call := [42] }

/-!
Saturating arithmetic and the `transaction_payment` function of
`bin/runtime-common/src/messages.rs`.
-/

/-- Saturating addition bounded by `bmax`. -/
def satAdd (bmax a b : Nat) : Nat := min (a + b) bmax

/-- Saturating multiplication bounded by `bmax`. -/
def satMul (bmax a b : Nat) : Nat := min (a * b) bmax

/-- The fixed-point divisor of `FixedU128` (18 decimals). -/
def fixedU128Div : Nat := 10 ^ 18

/-- The `FixedU128` value one (inner representation). -/
def fixedU128One : Nat := fixedU128Div

/-- Embedding of `FixedU128::saturating_mul_int` on an unsigned balance:
`⌊inner · n / 10^18⌋`, saturated at the balance bound. -/
def saturatingMulInt (bmax inner n : Nat) : Nat := min (inner * n / fixedU128Div) bmax

/-- Embedding of `transaction_payment` (`bin/runtime-common/src/messages.rs`):
base fee for the base extrinsic weight, plus unadjusted per-byte fee, plus the
multiplier-adjusted weight fee; all saturating.  `multiplier` is the inner
representation of the `FixedU128` multiplier, `bmax` the balance bound. -/
def transaction_payment (bmax : Nat) (base_extrinsic_weight per_byte_fee : Nat)
    (multiplier : Nat) (weight_to_fee : Nat → Nat)
    (transaction : MessageTransactionE) : Nat :=
  -- base fee is charged for every tx
  let base_fee := weight_to_fee base_extrinsic_weight
  -- non-adjustable per-byte fee
  let len_fee := satMul bmax per_byte_fee transaction.size
  -- the adjustable part of the fee
  let unadjusted_weight_fee := weight_to_fee transaction.dispatch_weight
  let adjusted_weight_fee := saturatingMulInt bmax multiplier unadjusted_weight_fee
  satAdd bmax (satAdd bmax base_fee len_fee) adjusted_weight_fee

/-!
Incoming message limits (`target` sub-module of
`bin/runtime-common/src/messages.rs`) and the relayer batch limit of
`relays/bin-substrate/src/chains/millau_messages_to_rialto.rs`.
-/

/-- Embedding of `target::maximal_incoming_message_dispatch_weight`. -/
def maximal_incoming_message_dispatch_weight (maximal_extrinsic_weight : Nat) : Nat :=
  maximal_extrinsic_weight / 2

/-- Embedding of `target::maximal_incoming_message_size`. -/
def maximal_incoming_message_size (maximal_extrinsic_size : Nat) : Nat :=
  maximal_extrinsic_size / 3 * 2

/-- Embedding of the per-batch message size limit set in `run` of
`millau_messages_to_rialto.rs`, as a function of the target (Rialto) chain
maximal extrinsic size. -/
def max_messages_size_in_single_batch (max_extrinsic_size : Nat) : Nat :=
  max_extrinsic_size / 3

/-- Embedding of `Rialto::is_outbound_lane_enabled`
(`bin/rialto/runtime/src/millau_messages.rs`). -/
def rialto_is_outbound_lane_enabled (lane : LaneIdBytes) : Bool :=
  lane == [0, 0, 0, 0] || lane == [0, 0, 0, 1]

/-- The lane id the spec calls dsbl (ASCII bytes of dsbl). -/
def DSBL_LANE_ID : LaneIdBytes := [100, 115, 98, 108]

/-!
Dispatch fee payment at the target chain (`FromBridgedChainMessageDispatch`).
Balances are a map from (abstract) account ids to free balances.
-/

/-- Modelled from the spec: `Currency::transfer` of `pallet-balances` (not part
of this tree).  Per §4.F it moves the value from the dispatch origin to the
relayer and fails on insufficient funds. -/
def currencyTransfer (balances : Nat → Nat) (source dest value : Nat) :
    Option (Nat → Nat) :=
  if value ≤ balances source then
    some (fun a =>
      if a = source then balances a - value
      else if a = dest then balances a + value
      else balances a)
  else none

/-- Embedding of the fee-payment closure inside
`FromBridgedChainMessageDispatch::dispatch`
(`bin/runtime-common/src/messages.rs`): the adjusted weight fee is the
next-fee-multiplier applied to the weight-to-fee of the dispatch weight; a
currency transfer from the dispatch origin to the relayer is attempted only
when that fee is non-zero.  Returns the new balances and whether the step
succeeded (`Ok`). -/
def pay_dispatch_fee (next_fee_multiplier : Nat) (weight_to_fee : Nat → Nat)
    (balance_max : Nat) (balances : Nat → Nat)
    (dispatch_origin relayer_account dispatch_weight : Nat) : (Nat → Nat) × Bool :=
  let unadjusted_weight_fee := weight_to_fee dispatch_weight
  let adjusted_weight_fee := saturatingMulInt balance_max next_fee_multiplier unadjusted_weight_fee
  if adjusted_weight_fee ≠ 0 then
    match currencyTransfer balances dispatch_origin relayer_account adjusted_weight_fee with
    | some updated => (updated, true)
    | none => (balances, false)
  else (balances, true)

/-- The minimal required fee before the relayer premium: the bridged-chain
delivery transaction fee converted to This chain balance plus the This chain
confirmation transaction fee (used to state the fee-estimation theorem). -/
def minimalFeeBase (cfg : MessageBridgeConfig) (payload : MessagePayloadE) : Nat :=
  let pay_at_target : Bool := payload.dispatch_fee_payment == .AtTargetChain
  cfg.bridged_balance_to_this_balance (cfg.bridged_transaction_payment
    (cfg.estimate_delivery_transaction (cfg.encode_payload payload) pay_at_target
      (if pay_at_target then 0 else payload.weight))) +
  cfg.this_transaction_payment cfg.estimate_delivery_confirmation_transaction

/-- A bridge configuration whose lane open-set is the one of the Rialto
runtime (used to instantiate the disabled-lane theorem; the remaining
components are those of the test configuration and are never reached when
the lane check fails). -/
def rialtoLaneBridgeConfig : MessageBridgeConfig :=
  { testBridgeConfig with is_outbound_lane_enabled := rialto_is_outbound_lane_enabled }

/-!
Theorems for the claims.
-/

/-- C4: for every base extrinsic weight, per-byte fee, multiplier, weight-to-fee
function and transaction, `transaction_payment` equals the weight-to-fee of the
base weight, saturating-plus the per-byte fee times the size, saturating-plus
the multiplier applied to the weight-to-fee of the dispatch weight; with
base 100, per-byte fee 10, identity weight-to-fee, size 50 and dispatch
weight 777 it returns 600 for multiplier zero and 1377 for multiplier one. -/
theorem C4_transaction_payment_formula :
    (∀ (bmax base_weight per_byte multiplier : Nat) (wtf : Nat → Nat)
        (tx : MessageTransactionE),
      transaction_payment bmax base_weight per_byte multiplier wtf tx =
        satAdd bmax (satAdd bmax (wtf base_weight) (satMul bmax per_byte tx.size))
          (saturatingMulInt bmax multiplier (wtf tx.dispatch_weight))) ∧
    transaction_payment u64Max 100 10 0 (fun w => w)
      { dispatch_weight := 777, size := 50 } = 600 ∧
    transaction_payment u64Max 100 10 fixedU128One (fun w => w)
      { dispatch_weight := 777, size := 50 } = 1377 := by
  refine ⟨fun bmax b p m wtf tx => rfl, by decide, by decide⟩

/-- C6 counterexample: at maximal extrinsic size 5 the code returns
`5 / 3 * 2 = 2`, while the claimed integer formula `5 · 2 / 3` gives 3. -/
theorem C6_message_size_counterexample :
    maximal_incoming_message_size 5 ≠ 5 * 2 / 3 := by decide

/-- C6 amended: `maximal_incoming_message_size s = s / 3 * 2` (the division by
3 happens first), which agrees with `s · 2 / 3` exactly on sizes divisible
by 3; and `maximal_incoming_message_dispatch_weight w = w / 2`. -/
theorem C6_incoming_message_limits :
    (∀ s, maximal_incoming_message_size s = s / 3 * 2) ∧
    (∀ s, s % 3 = 0 → maximal_incoming_message_size s = s * 2 / 3) ∧
    (∀ w, maximal_incoming_message_dispatch_weight w = w / 2) ∧
    maximal_incoming_message_size 1024 = 682 ∧
    maximal_incoming_message_dispatch_weight 2048 = 1024 := by
  refine ⟨fun s => rfl, fun s hs => ?_, fun w => rfl, by decide, by decide⟩
  obtain ⟨k, rfl⟩ : ∃ k, s = 3 * k := ⟨s / 3, by omega⟩
  simp [maximal_incoming_message_size]
  omega

/-- C6 amended witness: at size 6 (a multiple of 3) the limit is 4. -/
theorem C6_incoming_message_limits_witness :
    maximal_incoming_message_size 6 = 6 * 2 / 3 :=
  C6_incoming_message_limits.2.1 6 (by decide)

/-- C7 counterexample: with target maximal extrinsic size 1024 the relayer
sets the per-batch message size limit to `1024 / 3 = 341`, not
`1024 · 2 / 3 = 682` as claimed. -/
theorem C7_batch_size_counterexample :
    max_messages_size_in_single_batch 1024 ≠ 1024 * 2 / 3 := by decide

/-- C7 amended: the Millau-to-Rialto relayer sets
`max_messages_size_in_single_batch` to the target chain maximal extrinsic
size divided by 3 (two thirds being reserved for proofs and transaction
overhead); in particular it never exceeds the single-message size cap. -/
theorem C7_batch_size_limit :
    (∀ s, max_messages_size_in_single_batch s = s / 3) ∧
    max_messages_size_in_single_batch 1024 = 341 ∧
    (∀ s, max_messages_size_in_single_batch s ≤ maximal_incoming_message_size s) := by
  refine ⟨fun s => rfl, by decide, fun s => ?_⟩
  simp [max_messages_size_in_single_batch, maximal_incoming_message_size]
  omega

/-- C10: when the adjusted weight fee (next-fee-multiplier applied to the
weight-to-fee of the dispatch weight) is zero, the fee-payment step of
inbound message dispatch attempts no transfer: it succeeds and leaves the
balances of the dispatch origin and of the relayer (indeed of every account)
unchanged. -/
theorem C10_zero_adjusted_fee_no_transfer :
    ∀ (next_fee_multiplier : Nat) (weight_to_fee : Nat → Nat) (balance_max : Nat)
      (balances : Nat → Nat) (dispatch_origin relayer_account dispatch_weight : Nat),
      saturatingMulInt balance_max next_fee_multiplier (weight_to_fee dispatch_weight) = 0 →
      pay_dispatch_fee next_fee_multiplier weight_to_fee balance_max balances
          dispatch_origin relayer_account dispatch_weight = (balances, true) ∧
        (pay_dispatch_fee next_fee_multiplier weight_to_fee balance_max balances
          dispatch_origin relayer_account dispatch_weight).1 dispatch_origin =
            balances dispatch_origin ∧
        (pay_dispatch_fee next_fee_multiplier weight_to_fee balance_max balances
          dispatch_origin relayer_account dispatch_weight).1 relayer_account =
            balances relayer_account := by
  intro m wtf bmax balances origin relayer w h
  simp [pay_dispatch_fee, h]

/-- C10 witness: with next-fee-multiplier zero the fee-payment step returns
the starting balances (here constantly 100) unchanged and succeeds. -/
theorem C10_zero_adjusted_fee_no_transfer_witness :
    pay_dispatch_fee 0 (fun w => w) u64Max (fun _ => 100) 1 2 777 =
      ((fun _ => 100), true) :=
  (C10_zero_adjusted_fee_no_transfer 0 (fun w => w) u64Max (fun _ => 100) 1 2 777
    (by decide)).1

/-- C5 counterexample: `derive_account_id` hashes the SCALE encoding of the
tuple `(prefix, chain_id)`, which length-prefixes the prefix string; already
for the Root account on chain rlto the result differs from the BLAKE2b-256
hash of the bare concatenation `prefix ∥ chain_id` that the claim states. -/
theorem C5_derivation_counterexample :
    derive_account_id RIALTO_CHAIN_ID .Root ≠
      blake2b256 (rootAccountDerivationPrefixBytes ++ RIALTO_CHAIN_ID) := by
  decide

/-- C5 amended: `derive_account_id(chain_id, Root)` is the BLAKE2b-256 hash of
the SCALE-encoded tuple, i.e. the compact length of the root prefix, the
prefix string, then the chain id; `derive_account_id(chain_id, Account(a))`
likewise with the account prefix followed by the encoding of `a`.  For a
fixed account the hashed byte strings of two distinct chain ids always
differ, and concretely the accounts derived on chains rlto and mlau from the
same account encoding differ. -/
theorem C5_account_derivation :
    (∀ chainId : ChainIdBytes,
      derive_account_id chainId .Root =
        blake2b256 (compactEncode rootAccountDerivationPrefixBytes.length ++
          rootAccountDerivationPrefixBytes ++ chainId)) ∧
    (∀ (chainId : ChainIdBytes) (encodedId : List Nat),
      derive_account_id chainId (.Account encodedId) =
        blake2b256 (compactEncode accountDerivationPrefixBytes.length ++
          accountDerivationPrefixBytes ++ chainId ++ encodedId)) ∧
    (∀ (c c' : ChainIdBytes) (encodedId : List Nat), c ≠ c' →
      encodedAccountDerivation c encodedId ≠ encodedAccountDerivation c' encodedId) ∧
    derive_account_id RIALTO_CHAIN_ID (.Account [1, 0, 0, 0]) ≠
      derive_account_id MILLAU_CHAIN_ID (.Account [1, 0, 0, 0]) := by
  refine ⟨fun chainId => rfl, fun chainId encodedId => rfl, ?_, by decide⟩
  intro c c' e hne heq
  apply hne
  unfold encodedAccountDerivation at heq
  exact List.append_cancel_left (List.append_cancel_right heq)

/-- C5 witness: the byte strings hashed for the same account encoding on the
chains rlto and mlau are distinct. -/
theorem C5_account_derivation_witness :
    encodedAccountDerivation RIALTO_CHAIN_ID [1, 0, 0, 0] ≠
      encodedAccountDerivation MILLAU_CHAIN_ID [1, 0, 0, 0] :=
  C5_account_derivation.2.2.1 RIALTO_CHAIN_ID MILLAU_CHAIN_ID [1, 0, 0, 0] (by decide)

/-- C8: `verify_message` rejects any message on a lane outside the configured
open-set with the lane-disabled error, whatever the submitter, fee, payload
and outbound lane state; the Rialto runtime open-set is exactly the lanes
`[0,0,0,0]` and `[0,0,0,1]`, so on a Rialto-configured bridge an attempt on
the lane dsbl is rejected with that error. -/
theorem C8_disabled_lane_rejection :
    (∀ (cfg : MessageBridgeConfig) (submitter : SenderE) (fee : Nat) (lane : LaneIdBytes)
        (d : OutboundLaneDataE) (payload : MessagePayloadE),
      cfg.is_outbound_lane_enabled lane = false →
      verify_message cfg submitter fee lane d payload = .error OUTBOUND_LANE_DISABLED) ∧
    (∀ lane : LaneIdBytes, rialto_is_outbound_lane_enabled lane = true ↔
      lane = [0, 0, 0, 0] ∨ lane = [0, 0, 0, 1]) ∧
    (∀ cfg : MessageBridgeConfig,
      cfg.is_outbound_lane_enabled = rialto_is_outbound_lane_enabled →
      ∀ (submitter : SenderE) (fee : Nat) (d : OutboundLaneDataE) (payload : MessagePayloadE),
        verify_message cfg submitter fee DSBL_LANE_ID d payload =
          .error OUTBOUND_LANE_DISABLED) := by
  refine ⟨?_, ?_, ?_⟩
  · intro cfg submitter fee lane d payload h
    simp [verify_message, h]
  · intro lane
    simp [rialto_is_outbound_lane_enabled]
  · intro cfg h submitter fee d payload
    have hlane : cfg.is_outbound_lane_enabled DSBL_LANE_ID = false := by rw [h]; decide
    simp [verify_message, hlane]

/-- C8 witness: on the bridge configuration with the Rialto lane open-set, a
submission by Root with fee 1000000 on the lane dsbl is rejected as
lane-disabled. -/
theorem C8_disabled_lane_rejection_witness :
    verify_message rialtoLaneBridgeConfig .Root 1000000 DSBL_LANE_ID
      defaultOutboundLaneData regularOutboundMessagePayload =
      .error OUTBOUND_LANE_DISABLED :=
  C8_disabled_lane_rejection.2.2 rialtoLaneBridgeConfig rfl .Root 1000000
    defaultOutboundLaneData regularOutboundMessagePayload

/-- The fee estimator fails only with the overflow error. -/
theorem estimate_fee_error_is_overflow (cfg : MessageBridgeConfig)
    (payload : MessagePayloadE) (pct : Nat) (e : String) :
    estimate_message_dispatch_and_delivery_fee cfg payload pct = .error e →
    e = FEE_OVERFLOW := by
  intro h
  unfold estimate_message_dispatch_and_delivery_fee at h
  dsimp only at h
  rcases hadd : checkedAdd cfg.this_balance_max
      (cfg.bridged_balance_to_this_balance
        (cfg.bridged_transaction_payment
          (cfg.estimate_delivery_transaction (cfg.encode_payload payload)
            (payload.dispatch_fee_payment == DispatchFeePayment.AtTargetChain)
            (if (payload.dispatch_fee_payment == DispatchFeePayment.AtTargetChain) = true
             then 0 else payload.weight))))
      (cfg.this_transaction_payment cfg.estimate_delivery_confirmation_transaction)
    with _ | base
  · rw [hadd] at h
    simp_all
  · rw [hadd] at h
    dsimp only at h
    rcases hmul : checkedMul cfg.this_balance_max base pct with _ | product
    · rw [hmul] at h
      simp_all
    · rw [hmul] at h
      dsimp only at h
      rcases hdiv : checkedDiv product 100 with _ | interest
      · rw [hdiv] at h
        simp_all
      · rw [hdiv] at h
        dsimp only at h
        rcases hfin : checkedAdd cfg.this_balance_max base interest with _ | total
        · rw [hfin] at h
          simp_all
        · rw [hfin] at h
          simp_all

/-- C9: on an enabled lane, `verify_message` fails with the
too-many-pending-messages error exactly when the difference between the
latest generated and the latest received nonce exceeds the configured maximal
number of pending messages; in particular a lane exceeding the maximum (32 in
the test configuration) by one is rejected with that error. -/
theorem C9_too_many_pending :
    (∀ (cfg : MessageBridgeConfig) (submitter : SenderE) (fee : Nat) (lane : LaneIdBytes)
        (d : OutboundLaneDataE) (payload : MessagePayloadE),
      cfg.is_outbound_lane_enabled lane = true →
      (verify_message cfg submitter fee lane d payload = .error TOO_MANY_PENDING_MESSAGES ↔
        d.latest_generated_nonce - d.latest_received_nonce > cfg.maximal_pending_messages)) ∧
    verify_message testBridgeConfig .Root 1000000 TEST_LANE_ID
      { oldest_unpruned_nonce := 1, latest_received_nonce := 100, latest_generated_nonce := 133 }
      regularOutboundMessagePayload = .error TOO_MANY_PENDING_MESSAGES := by
  constructor
  · intro cfg submitter fee lane d payload hlane
    constructor
    · intro h
      by_contra hp
      simp only [verify_message, hlane, hp] at h
      rcases horig : verify_message_origin cfg.target_signature_valid submitter payload with _ | _
      · rw [horig] at h
        simp at h
        exact absurd h (by decide)
      · rw [horig] at h
        simp at h
        rcases hest : estimate_message_dispatch_and_delivery_fee cfg payload
            cfg.relayer_fee_percent with e | minimal
        · rw [hest] at h
          have := estimate_fee_error_is_overflow cfg payload cfg.relayer_fee_percent e hest
          subst this
          simp at h
          exact absurd h (by decide)
        · rw [hest] at h
          dsimp only at h
          split at h
          · simp at h
            exact absurd h (by decide)
          · exact Except.noConfusion h
    · intro hp
      simp [verify_message, hlane, hp]
  · decide

/-- C9 witness: for the test configuration, a lane with 33 pending messages
(one more than the maximum of 32) is rejected exactly because 33 exceeds 32. -/
theorem C9_too_many_pending_witness :
    verify_message testBridgeConfig .Root 7 TEST_LANE_ID
        { oldest_unpruned_nonce := 1, latest_received_nonce := 0, latest_generated_nonce := 33 }
        regularOutboundMessagePayload = .error TOO_MANY_PENDING_MESSAGES ↔
      33 - 0 > 32 :=
  C9_too_many_pending.1 testBridgeConfig .Root 7 TEST_LANE_ID
    { oldest_unpruned_nonce := 1, latest_received_nonce := 0, latest_generated_nonce := 33 }
    regularOutboundMessagePayload (by decide)

/-- C1: the estimated minimal fee is the bridged-chain delivery transaction
fee converted to This chain balance, plus the This chain confirmation
transaction fee, plus that sum times the relayer fee percent divided by 100;
every checked step that overflows the balance bound yields the overflow
error.  `verify_message` rejects a declared fee below this minimum with the
too-low-fee error.  For the S1 payload under the test bridge configuration
(relayer fee percent 10) the minimal fee is 5500; a declared fee of 1 is
rejected as too low and a declared fee of 1000000 is accepted. -/
theorem C1_fee_estimation_and_low_fee_rejection :
    (∀ (cfg : MessageBridgeConfig) (payload : MessagePayloadE) (pct : Nat),
      estimate_message_dispatch_and_delivery_fee cfg payload pct =
        (if minimalFeeBase cfg payload ≤ cfg.this_balance_max ∧
            minimalFeeBase cfg payload * pct ≤ cfg.this_balance_max ∧
            minimalFeeBase cfg payload + minimalFeeBase cfg payload * pct / 100 ≤
              cfg.this_balance_max
         then .ok (minimalFeeBase cfg payload + minimalFeeBase cfg payload * pct / 100)
         else .error FEE_OVERFLOW)) ∧
    (∀ (cfg : MessageBridgeConfig) (submitter : SenderE) (fee : Nat) (lane : LaneIdBytes)
        (d : OutboundLaneDataE) (payload : MessagePayloadE) (minimal : Nat),
      cfg.is_outbound_lane_enabled lane = true →
      d.latest_generated_nonce - d.latest_received_nonce ≤ cfg.maximal_pending_messages →
      verify_message_origin cfg.target_signature_valid submitter payload = true →
      estimate_message_dispatch_and_delivery_fee cfg payload cfg.relayer_fee_percent =
        .ok minimal →
      fee < minimal →
      verify_message cfg submitter fee lane d payload = .error TOO_LOW_FEE) ∧
    estimate_message_dispatch_and_delivery_fee testBridgeConfig
      regularOutboundMessagePayload 10 = .ok 5500 ∧
    verify_message testBridgeConfig .Root 1 TEST_LANE_ID defaultOutboundLaneData
      regularOutboundMessagePayload = .error TOO_LOW_FEE ∧
    verify_message testBridgeConfig .Root 1000000 TEST_LANE_ID defaultOutboundLaneData
      regularOutboundMessagePayload = .ok () := by
  refine ⟨?_, ?_, by decide, by decide, by decide⟩
  · intro cfg payload pct
    unfold estimate_message_dispatch_and_delivery_fee minimalFeeBase
    dsimp only
    set X := cfg.bridged_balance_to_this_balance
        (cfg.bridged_transaction_payment
          (cfg.estimate_delivery_transaction (cfg.encode_payload payload)
            (payload.dispatch_fee_payment == DispatchFeePayment.AtTargetChain)
            (if (payload.dispatch_fee_payment == DispatchFeePayment.AtTargetChain) = true
             then 0 else payload.weight))) with hX
    set Y := cfg.this_transaction_payment cfg.estimate_delivery_confirmation_transaction
      with hY
    set M := cfg.this_balance_max with hM
    simp only [checkedAdd, checkedMul, checkedDiv]
    by_cases h1 : X + Y ≤ M
    · simp only [h1, if_true]
      by_cases h2 : (X + Y) * pct ≤ M
      · simp only [h2, if_true]
        have h100 : ¬ (100 = 0) := by decide
        simp only [h100, if_false]
        by_cases h3 : X + Y + (X + Y) * pct / 100 ≤ M
        · simp only [h3, if_true, and_true, true_and]
        · simp only [h3, if_false, and_false, true_and]
      · simp only [h2, if_false, false_and, and_false, true_and]
    · simp only [h1, if_false, false_and]
  · intro cfg submitter fee lane d payload minimal hlane hpending horig hest hlt
    have hp : ¬ (d.latest_generated_nonce - d.latest_received_nonce >
        cfg.maximal_pending_messages) := not_lt.mpr hpending
    simp [verify_message, hlane, hp, horig, hest, hlt]

/-- C1 witness: under the test configuration the minimal fee of the S1
payload is 5500, so a declared fee of 5499 is rejected as too low. -/
theorem C1_fee_estimation_and_low_fee_rejection_witness :
    verify_message testBridgeConfig .Root 5499 TEST_LANE_ID defaultOutboundLaneData
      regularOutboundMessagePayload = .error TOO_LOW_FEE :=
  C1_fee_estimation_and_low_fee_rejection.2.1 testBridgeConfig .Root 5499 TEST_LANE_ID
    defaultOutboundLaneData regularOutboundMessagePayload 5500 (by decide) (by decide)
    (by decide) (by decide) (by decide)

/-- Message reading yields either the messages or one of the two
message-reading errors. -/
theorem readMessages_cases (parser : MessageProofParser)
    (dfee : List Nat → Option (Nat × List Nat)) (lane : LaneIdBytes) :
    ∀ (count start : Nat),
      (∃ msgs, readMessages parser dfee lane start count = .ok msgs) ∨
      readMessages parser dfee lane start count = .error .MissingRequiredMessage ∨
      readMessages parser dfee lane start count = .error .FailedToDecodeMessage := by
  intro count
  induction count with
  | zero => exact fun s => .inl ⟨[], rfl⟩
  | succ n ih =>
    intro s
    unfold readMessages
    dsimp only
    cases hk : parser.read_raw_message { lane_id := lane, nonce := s } with
    | none => right; left; rfl
    | some raw =>
      dsimp only
      cases hd : decodeMessageData dfee raw with
      | none => right; right; rfl
      | some data =>
        dsimp only
        rcases ih (s + 1) with ⟨msgs, hm⟩ | hm | hm
        · left; exact ⟨_, by rw [hm]⟩
        · right; left; rw [hm]
        · right; right; rw [hm]

/-- When message reading succeeds it returns exactly `count` messages. -/
theorem readMessages_ok_length (parser : MessageProofParser)
    (dfee : List Nat → Option (Nat × List Nat)) (lane : LaneIdBytes) :
    ∀ (count start : Nat) (msgs : List MessageE),
      readMessages parser dfee lane start count = .ok msgs → msgs.length = count := by
  intro count
  induction count with
  | zero =>
    intro s msgs h
    unfold readMessages at h
    simp only [Except.ok.injEq] at h
    subst h
    rfl
  | succ n ih =>
    intro s msgs h
    unfold readMessages at h
    dsimp only at h
    cases hk : parser.read_raw_message { lane_id := lane, nonce := s } with
    | none => rw [hk] at h; exact Except.noConfusion h
    | some raw =>
      rw [hk] at h
      dsimp only at h
      cases hd : decodeMessageData dfee raw with
      | none => rw [hd] at h; exact Except.noConfusion h
      | some data =>
        rw [hd] at h
        dsimp only at h
        cases hr : readMessages parser dfee lane (s + 1) n with
        | error e => rw [hr] at h; exact Except.noConfusion h
        | ok tail =>
          rw [hr] at h
          simp only [Except.ok.injEq] at h
          subst h
          simp [ih (s + 1) tail hr]

/-- After a passing count check and a successful parser, the verifier never
returns the count-mismatch error. -/
theorem verify_rest_ne_mismatch (dfee : List Nat → Option (Nat × List Nat))
    (proof : FromBridgedChainMessagesProof) (count : Nat) (parser : MessageProofParser)
    (hc : ¬ (proof.nonces_start ≤ proof.nonces_end ∧
      min (proof.nonces_end - proof.nonces_start + 1) u64Max ≠ count)) :
    verifyMessagesProofWithParser dfee proof count (fun _ _ => .ok parser) ≠
      .error .MessagesCountMismatch := by
  intro h
  unfold verifyMessagesProofWithParser at h
  rw [if_neg hc] at h
  dsimp only at h
  rcases readMessages_cases parser dfee proof.lane
      (proof.nonces_end + 1 - proof.nonces_start) proof.nonces_start with ⟨msgs, hm⟩ | hm | hm
  · rw [hm] at h
    dsimp only at h
    cases hl : parser.read_raw_outbound_lane_data proof.lane with
    | none =>
      rw [hl] at h
      dsimp only at h
      split at h
      · exact MessageProofError.noConfusion (Except.error.inj h)
      · exact Except.noConfusion h
    | some raw =>
      rw [hl] at h
      dsimp only at h
      cases hd : decodeOutboundLaneData raw with
      | none => rw [hd] at h; exact MessageProofError.noConfusion (Except.error.inj h)
      | some st => rw [hd] at h; exact Except.noConfusion h
  · rw [hm] at h; exact MessageProofError.noConfusion (Except.error.inj h)
  · rw [hm] at h; exact MessageProofError.noConfusion (Except.error.inj h)

/-- C2 counterexample: the count check is skipped when `nonces_end` is below
`nonces_start`.  The proof with `nonces_start = 1`, `nonces_end = 0` declared
with `messages_count = 5` — although 5 differs from
`nonces_end − nonces_start + 1` — is not rejected with the count-mismatch
error: it verifies successfully when an outbound lane state is present. -/
theorem C2_count_mismatch_counterexample :
    (5 : Nat) ≠ (messagesProofFrom1 0).nonces_end - (messagesProofFrom1 0).nonces_start + 1 ∧
    verifyMessagesProofWithParser (decodeUintLe 4) (messagesProofFrom1 0) 5
        (fun _ _ => .ok (testMessageProofParser false 1 0
          (some { oldest_unpruned_nonce := 1, latest_received_nonce := 1,
                  latest_generated_nonce := 1 }))) =
      .ok [([0, 0, 0, 0],
        { lane_state := some { oldest_unpruned_nonce := 1, latest_received_nonce := 1,
                               latest_generated_nonce := 1 },
          messages := [] })] := by
  exact ⟨by decide, by decide⟩

/-- C2 amended: for proofs with `nonces_start ≤ nonces_end` (and `u64` nonces,
`u32` count), verification fails with the count-mismatch error exactly when
the declared count differs from `nonces_end − nonces_start + 1`; proofs with
`nonces_end < nonces_start` skip the count check.  In particular the proof
with nonces 1..10 is rejected with that error when declared with count 5, and
likewise with count 15. -/
theorem C2_count_mismatch :
    (∀ (dfee : List Nat → Option (Nat × List Nat)) (proof : FromBridgedChainMessagesProof)
        (count : Nat) (parser : MessageProofParser),
      proof.nonces_end ≤ u64Max → count ≤ u32Max →
      (verifyMessagesProofWithParser dfee proof count (fun _ _ => .ok parser) =
          .error .MessagesCountMismatch ↔
        proof.nonces_start ≤ proof.nonces_end ∧
          count ≠ proof.nonces_end - proof.nonces_start + 1)) ∧
    verifyMessagesProofWithParser (decodeUintLe 4) (messagesProofFrom1 10) 5
      (fun _ _ => .error (.Custom "no parser")) = .error .MessagesCountMismatch ∧
    verifyMessagesProofWithParser (decodeUintLe 4) (messagesProofFrom1 10) 15
      (fun _ _ => .error (.Custom "no parser")) = .error .MessagesCountMismatch := by
  refine ⟨?_, by decide, by decide⟩
  intro dfee proof count parser hend hcount
  have hcond : (proof.nonces_start ≤ proof.nonces_end ∧
      min (proof.nonces_end - proof.nonces_start + 1) u64Max ≠ count) ↔
      (proof.nonces_start ≤ proof.nonces_end ∧
        count ≠ proof.nonces_end - proof.nonces_start + 1) := by
    simp only [u64Max, u32Max] at hend hcount ⊢
    omega
  constructor
  · intro h
    by_contra hr
    have hc : ¬ (proof.nonces_start ≤ proof.nonces_end ∧
        min (proof.nonces_end - proof.nonces_start + 1) u64Max ≠ count) :=
      fun hx => hr (hcond.mp hx)
    exact verify_rest_ne_mismatch dfee proof count parser hc h
  · intro hr
    unfold verifyMessagesProofWithParser
    rw [if_pos (hcond.mpr hr)]

/-- C2 witness: for the proof with nonces 1..10 and declared count 5, the
count-mismatch characterization holds at concrete inputs. -/
theorem C2_count_mismatch_witness :
    verifyMessagesProofWithParser (decodeUintLe 4) (messagesProofFrom1 10) 5
        (fun _ _ => .ok (testMessageProofParser false 1 10 none)) =
        .error .MessagesCountMismatch ↔
      (messagesProofFrom1 10).nonces_start ≤ (messagesProofFrom1 10).nonces_end ∧
        5 ≠ (messagesProofFrom1 10).nonces_end - (messagesProofFrom1 10).nonces_start + 1 :=
  C2_count_mismatch.1 (decodeUintLe 4) (messagesProofFrom1 10) 5
    (testMessageProofParser false 1 10 none) (by decide) (by decide)

/-- C3: with a successfully built parser, messages-proof verification fails
with the empty-proof error exactly when the proof carries no messages
(`nonces_end < nonces_start`) and the parser has no outbound lane state for
the lane; a proof carrying only an outbound lane state and no messages
verifies successfully. -/
theorem C3_empty_proof :
    (∀ (dfee : List Nat → Option (Nat × List Nat)) (proof : FromBridgedChainMessagesProof)
        (count : Nat) (parser : MessageProofParser),
      (verifyMessagesProofWithParser dfee proof count (fun _ _ => .ok parser) =
          .error .Empty ↔
        proof.nonces_end < proof.nonces_start ∧
          parser.read_raw_outbound_lane_data proof.lane = none)) ∧
    verifyMessagesProofWithParser (decodeUintLe 4) (messagesProofFrom1 0) 0
        (fun _ _ => .ok (testMessageProofParser false 1 0
          (some { oldest_unpruned_nonce := 1, latest_received_nonce := 1,
                  latest_generated_nonce := 1 }))) =
      .ok [([0, 0, 0, 0],
        { lane_state := some { oldest_unpruned_nonce := 1, latest_received_nonce := 1,
                               latest_generated_nonce := 1 },
          messages := [] })] := by
  refine ⟨?_, by decide⟩
  intro dfee proof count parser
  constructor
  · intro h
    unfold verifyMessagesProofWithParser at h
    split at h
    · exact MessageProofError.noConfusion (Except.error.inj h)
    · next hc =>
      dsimp only at h
      rcases readMessages_cases parser dfee proof.lane
          (proof.nonces_end + 1 - proof.nonces_start) proof.nonces_start with
        ⟨msgs, hm⟩ | hm | hm
      · rw [hm] at h
        dsimp only at h
        cases hl : parser.read_raw_outbound_lane_data proof.lane with
        | none =>
          rw [hl] at h
          dsimp only at h
          split at h
          · next hemp =>
            refine ⟨?_, rfl⟩
            have hlen := readMessages_ok_length parser dfee proof.lane _ _ msgs hm
            cases msgs with
            | nil => simp only [List.length_nil] at hlen; omega
            | cons a tl => simp at hemp
          · exact Except.noConfusion h
        | some raw =>
          rw [hl] at h
          dsimp only at h
          cases hd : decodeOutboundLaneData raw with
          | none => rw [hd] at h; exact MessageProofError.noConfusion (Except.error.inj h)
          | some st => rw [hd] at h; exact Except.noConfusion h
      · rw [hm] at h; exact MessageProofError.noConfusion (Except.error.inj h)
      · rw [hm] at h; exact MessageProofError.noConfusion (Except.error.inj h)
  · rintro ⟨hlt, hl⟩
    unfold verifyMessagesProofWithParser
    rw [if_neg (fun hx => absurd hx.1 (not_le.mpr hlt))]
    dsimp only
    have h0 : proof.nonces_end + 1 - proof.nonces_start = 0 := by omega
    rw [h0, show readMessages parser dfee proof.lane proof.nonces_start 0 = .ok [] from rfl]
    dsimp only
    rw [hl]
    rfl
